import Mathlib

/-!
Shallow embedding of `src/duckietown_challenges/runner.py` (the duckietown-challenges
evaluator).  The external effects of one evaluation pass (reading the shell token,
the work-submission call, the sandbox filesystem steps, the exit codes of the
docker-compose invocations, reading the results file, the docker build/push calls and
the report call) are captured by a `PassEnv` record describing the outcome of each
effect; the functions `go_`, `dt_challenges_evaluator_continuous` and
`dt_challenges_evaluator_explicit` translate the Python control flow over such an
environment, producing the trace of externally visible events and the propagated
exception, if any.
-/

set_option autoImplicit false

namespace DTRunner

/-- Status enumeration of a challenge outcome (`ChallengeResultsStatus` of
`challenge_results.py`, spec section 4.5: SUCCESS, FAILED, ERROR). -/
inductive ChallengeResultsStatus
  | success
  | failed
  | error
deriving DecidableEq

/-- Modelled from the spec: `challenge_results.py` is imported by `runner.py` but is not
among the given sources.  Spec section 3 gives ChallengeResult the fields status,
message (human-readable, may be empty) and scores (a mapping from score name to numeric
value).  The mapping is embedded as an association list. -/
structure ChallengeResults where
  status : ChallengeResultsStatus
  msg : String
  scores : List (String × Int)
deriving DecidableEq

/-- Modelled from the spec: section 4.7 says the reported stats are the scores mapping
of the ChallengeResult (`cr.get_stats()` in `runner.py` line 272). -/
def ChallengeResults.get_stats (cr : ChallengeResults) : List (String × Int) := cr.scores

/-- Modelled from the spec: the reported result is the status of the ChallengeResult
(`cr.get_status()` in `runner.py` line 279). -/
def ChallengeResults.get_status (cr : ChallengeResults) : ChallengeResultsStatus := cr.status

/-- The exception kinds distinguished by `runner.py`: `NothingLeft` (raised by `go_`
itself and re-raised by the handler at line 264), `ConnectionError` (imported from
`dt_shell.remote`, handled separately by the continuous loop) and any other `Exception`
carrying a message. -/
inductive Exc
  | nothingLeft (msg : String)
  | connectionError (msg : String)
  | exc (msg : String)
deriving DecidableEq

/-- Whether an exception is the `NothingLeft` kind. -/
def Exc.isNothingLeft : Exc → Bool
  | .nothingLeft _ => true
  | _ => false

/-- Embedding of `traceback.format_exc()`: the rendered trace of the current exception.
The rendering is a fixed function of the exception kind and its message. -/
def formatExc : Exc → String
  | .nothingLeft m => "Traceback: NothingLeft: " ++ m
  | .connectionError m => "Traceback: ConnectionError: " ++ m
  | .exc m => "Traceback: Exception: " ++ m

/-- The trace text of the failed bare assertion `assert evaluation_protocol == p1` at
`runner.py` line 141.  A bare Python assert raises `AssertionError` with no argument;
its traceback shows only the static source line, so this text is a constant: it does
not depend on the actual (unsupported) protocol value. -/
def protocolAssertionDetail : String := "AssertionError: assert evaluation_protocol == p1"

/-- Message of the exception raised when `docker-compose pull` exits non-zero
(`runner.py` line 224). -/
def composeMsgPull : String := "Could not run docker-compose pull."

/-- Message of the exception raised when `docker-compose up` exits non-zero
(`runner.py` line 230). -/
def composeMsgUp : String := "Could not run docker-compose."

/-- The fields of a job descriptor that `go_` reads from a successful work-submission
response: `job_id`, `challenge_name`, `parameters.hash` and
`challenge_parameters.protocol` / `challenge_parameters.container` (spec section 6). -/
structure JobFields where
  job_id : String
  challenge_name : String
  solution_hash : String
  protocol : String
  container : String
deriving DecidableEq

/-- A work-submission response (spec section 6): either it carries a `job_id` together
with the job fields, or it lacks `job_id` and carries only an explanation `msg`. -/
structure WorkSubmissionResponse where
  job : Option JobFields
  msg : String
deriving DecidableEq

/-- Outcome of one external effect: it either completes or raises an exception. -/
inductive StageOutcome
  | ok
  | raise (e : Exc)
deriving DecidableEq

/-- Whether a stage outcome raises a `NothingLeft` exception. -/
def StageOutcome.raisesNothingLeft : StageOutcome → Bool
  | .ok => false
  | .raise e => e.isNothingLeft

/-- Whether a fallible value raises a `NothingLeft` exception. -/
def exceptRaisesNL {α : Type} : Except Exc α → Bool
  | .ok _ => false
  | .error e => e.isNothingLeft

/-- The outcomes of the external effects of one pass of `go_`:
* `tokenOk` — `get_token_from_shell_config()` (line 107);
* `acquire` — `dtserver_work_submission(...)` (line 114);
* `sandboxA` — `tempfile.mkdtemp` and the `last` symlink replacement (lines 129-134);
* `sandboxB` — the four `os.makedirs` calls and writing the compose manifest and the
  Dockerfile (lines 145-218);
* `pullRet` / `upRet` — the exit codes of `docker-compose pull` / `up` (lines 222, 228);
* `readResults` — `read_challenge_results(wd)` (line 235);
* `buildGet` — `client.images.build` plus fetching the built image and its id and size
  (lines 247-254), yielding the image id and the byte size on success;
* `pushOut` — `client.images.push(tag)` (line 259);
* `reportOut` — `dtserver_report_job(...)` (line 276). -/
structure PassEnv where
  tokenOk : StageOutcome
  acquire : Except Exc WorkSubmissionResponse
  sandboxA : StageOutcome
  sandboxB : StageOutcome
  pullRet : Int
  upRet : Int
  readResults : Except Exc ChallengeResults
  buildGet : Except Exc (String × Int)
  pushOut : StageOutcome
  reportOut : StageOutcome

/-- Artifact metadata as inserted at line 274: `dict(size=size, image=artifacts_image)`.
The `size` variable may in principle still be `None`, hence `Option Int`. -/
structure Artifacts where
  size : Option Int
  image : String
deriving DecidableEq

/-- The `stats` dictionary passed to `dtserver_report_job`: the mapping returned by
`cr.get_stats()`, optionally augmented with an `artifacts` entry (lines 272-274). -/
structure Stats where
  scores : List (String × Int)
  artifacts : Option Artifacts
deriving DecidableEq

/-- Externally visible events of one pass: the two docker-compose invocations, the
docker build and push of the artifact image, and the report call with its payload. -/
inductive Event
  | composePull
  | composeUp
  | publishBuild
  | publishPush
  | report (job_id : String) (stats : Stats) (result : ChallengeResultsStatus)
deriving DecidableEq

/-- Whether an event is a report call. -/
def Event.isReport : Event → Bool
  | .report _ _ _ => true
  | _ => false

/-- Number of report calls in a trace. -/
def reportCount (evs : List Event) : Nat := (evs.filter Event.isReport).length

deriving instance DecidableEq for Except

/-- The state at the end of the `try` block of `go_` (lines 128-261): the events
emitted so far, the values of the `artifacts_image` and `size` variables (initialised
to `None` at line 127, possibly set at lines 252-254, and retained even when a later
statement raises), and either the computed ChallengeResults or the escaping
exception. -/
structure TryResult where
  events : List Event
  artifacts_image : Option String
  size : Option Int
  out : Except Exc ChallengeResults
deriving DecidableEq

/-- A failing `TryResult` with the given trace: `artifacts_image` and `size` still
hold their initial `None`. -/
def failTry (evs : List Event) (e : Exc) : TryResult :=
  { events := evs, artifacts_image := none, size := none, out := .error e }

/-- The artifact tag-with-digest string built at lines 246 and 252:
`docker_username/jobs:job_id@image_id`. -/
def artTag (u jid imgId : String) : String := u ++ "/jobs:" ++ jid ++ "@" ++ imgId

/-- The artifact-publishing block (lines 242-261).  When `docker_username` is set the
image is built from the workspace, its id and size are read, `artifacts_image` and
`size` are assigned, and the tag is pushed; any raise escapes the block, with the two
variables keeping whatever was assigned before the raise. -/
def tryPublish (du : Option String) (job : JobFields) (env : PassEnv)
    (evs : List Event) (cr : ChallengeResults) : TryResult :=
  match du with
  | none => { events := evs, artifacts_image := none, size := none, out := .ok cr }
  | some u =>
    match env.buildGet with
    | .error e => failTry (evs ++ [Event.publishBuild]) e
    | .ok (imgId, sz) =>
      match env.pushOut with
      | .raise e =>
        { events := evs ++ [Event.publishBuild, Event.publishPush],
          artifacts_image := some (artTag u job.job_id imgId), size := some sz,
          out := .error e }
      | .ok =>
        { events := evs ++ [Event.publishBuild, Event.publishPush],
          artifacts_image := some (artTag u job.job_id imgId), size := some sz,
          out := .ok cr }

/-- Result extraction (lines 234-240): the value of the `cr` variable after the inner
`try`/`except` — `read_challenge_results` is attempted and any exception, of any kind,
is contained on the spot: the local handler synthesizes a status-ERROR
ChallengeResults whose message carries the formatted trace and whose scores mapping is
empty. -/
def extractedCr (r : Except Exc ChallengeResults) : ChallengeResults :=
  match r with
  | .ok cr => cr
  | .error e =>
    { status := .error,
      msg := "Could not read the challenge results:\n" ++ formatExc e, scores := [] }

/-- Lines 234-261: result extraction followed by the publishing block. -/
def tryExtract (du : Option String) (job : JobFields) (env : PassEnv)
    (evs : List Event) : TryResult :=
  tryPublish du job env evs (extractedCr env.readResults)

/-- The `docker-compose up` step (lines 227-231): always invoked at this point; a
non-zero exit raises with `composeMsgUp`, otherwise extraction follows. -/
def tryUp (du : Option String) (job : JobFields) (env : PassEnv)
    (evs : List Event) : TryResult :=
  if env.upRet = 0 then tryExtract du job env (evs ++ [Event.composeUp])
  else failTry (evs ++ [Event.composeUp]) (.exc composeMsgUp)

/-- The runner steps (lines 220-231): `docker-compose pull` is invoked only when
pulling is enabled, and a non-zero exit raises with `composeMsgPull` before `up` is
ever attempted. -/
def tryRun (dp : Bool) (du : Option String) (job : JobFields) (env : PassEnv) : TryResult :=
  if dp then
    if env.pullRet = 0 then tryUp du job env [Event.composePull]
    else failTry [Event.composePull] (.exc composeMsgPull)
  else tryUp du job env []

/-- The whole `try` block of `go_` (lines 128-261): workspace creation and symlink
(`sandboxA`), then the protocol assertion of line 141 — a bare assert whose failure
raises an `AssertionError` whose trace is the constant `protocolAssertionDetail` —
then the directory and manifest writes (`sandboxB`), then the runner, extraction and
publishing steps. -/
def tryBody (dp : Bool) (du : Option String) (job : JobFields) (env : PassEnv) : TryResult :=
  match env.sandboxA with
  | .raise e => failTry [] e
  | .ok =>
    if job.protocol = "p1" then
      match env.sandboxB with
      | .raise e => failTry [] e
      | .ok => tryRun dp du job env
    else failTry [] (.exc protocolAssertionDetail)

/-- The acquisition check of lines 116-119: a response without `job_id` raises
`NothingLeft` carrying the explanation message of the server. -/
def acquisitionOutcome (res : WorkSubmissionResponse) : Except Exc JobFields :=
  match res.job with
  | none => .error (.nothingLeft ("Could not find jobs: " ++ res.msg))
  | some job => .ok job

/-- The result of one call of `go_`: it either returns normally or propagates an
exception to its caller. -/
inductive PassResult
  | ok
  | raised (e : Exc)
deriving DecidableEq

/-- The observable outcome of one call of `go_`: the emitted events, the propagated
exception if any, and the ChallengeResults in scope at the report point (line 272),
when that point was reached. -/
structure PassTrace where
  events : List Event
  result : PassResult
  finalCr : Option ChallengeResults
deriving DecidableEq

/-- The `stats` payload construction of lines 272-274: `cr.get_stats()`, with an
`artifacts` entry added when the `artifacts_image` variable is truthy (a non-`None`,
non-empty string). -/
def mkStats (cr : ChallengeResults) (art : Option String) (sz : Option Int) : Stats :=
  match art with
  | none => { scores := cr.get_stats, artifacts := none }
  | some img =>
    if img = "" then { scores := cr.get_stats, artifacts := none }
    else { scores := cr.get_stats, artifacts := some { size := sz, image := img } }

/-- The tail of `go_` from line 272 on: build the stats payload and call
`dtserver_report_job`; a raise from the report call itself propagates out of `go_`,
after the call was made. -/
def finishReport (job : JobFields) (env : PassEnv) (t : TryResult)
    (cr : ChallengeResults) : PassTrace :=
  let stats := mkStats cr t.artifacts_image t.size
  let evs := t.events ++ [Event.report job.job_id stats cr.get_status]
  match env.reportOut with
  | .raise e => { events := evs, result := .raised e, finalCr := some cr }
  | .ok => { events := evs, result := .ok, finalCr := some cr }

/-- One pass of `go_` (lines 106-283): token read, work submission, the acquisition
check, the `try` block, then the exception handlers of lines 264-270 (`NothingLeft`
is re-raised; any other exception is converted into a synthesized status-ERROR
ChallengeResults whose message carries the formatted trace) and the report tail. -/
def go_ (submission_id : Option String) (dp : Bool) (du : Option String)
    (env : PassEnv) : PassTrace :=
  match env.tokenOk with
  | .raise e => { events := [], result := .raised e, finalCr := none }
  | .ok =>
    match env.acquire with
    | .error e => { events := [], result := .raised e, finalCr := none }
    | .ok res =>
      match acquisitionOutcome res with
      | .error e => { events := [], result := .raised e, finalCr := none }
      | .ok job =>
        let t := tryBody dp du job env
        match t.out with
        | .error (.nothingLeft m) =>
          { events := t.events, result := .raised (.nothingLeft m), finalCr := none }
        | .error e =>
          finishReport job env t
            { status := .error, msg := "Uncaught exception:\n" ++ formatExc e,
              scores := [] }
        | .ok cr => finishReport job env t cr

/-- The base polling interval of the continuous loop (`timeout = 5.0` at line 67). -/
def base_interval : ℚ := 5

/-- The multiplier cap of the continuous loop (`max_multiplier = 10` at line 69). -/
def max_multiplier : ℚ := 10

/-- One iteration record of the continuous loop: the events of the pass, the sleep
duration of line 87, and the multiplier value carried to the next iteration. -/
structure IterRecord where
  events : List Event
  sleep : ℚ
  multiplierAfter : ℚ
deriving DecidableEq

/-- One iteration of the continuous loop (lines 70-87): the multiplier is first capped
at `max_multiplier`, one pass of `go_` runs with no explicit submission id, the
handlers update the multiplier — reset to 1 on a normal return, kept unchanged on
`NothingLeft`, multiplied by 3/2 on `ConnectionError` or any other exception — and the
loop sleeps `base_interval` times the updated multiplier. -/
def loopStep (dp : Bool) (du : Option String) (m : ℚ) (env : PassEnv) : IterRecord :=
  let m0 := min m max_multiplier
  let t := go_ none dp du env
  let m1 : ℚ :=
    match t.result with
    | .ok => 1
    | .raised (.nothingLeft _) => m0
    | .raised (.connectionError _) => m0 * (3 / 2)
    | .raised (.exc _) => m0 * (3 / 2)
  { events := t.events, sleep := base_interval * m1, multiplierAfter := m1 }

/-- The continuous mode of `dt_challenges_evaluator` (lines 65-87), run over a finite
prefix of pass environments: each environment drives one iteration, and only the
backoff multiplier is threaded from one iteration to the next. -/
def dt_challenges_evaluator_continuous (dp : Bool) (du : Option String) (m : ℚ) :
    List PassEnv → List IterRecord
  | [] => []
  | env :: rest =>
    let r := loopStep dp du m env
    r :: dt_challenges_evaluator_continuous dp du r.multiplierAfter rest

/-- The explicit-list mode of `dt_challenges_evaluator` (lines 89-99): one pass per
listed submission id; only `NothingLeft` is caught (and logged), upon which the next
id is tried; any other propagated exception terminates the iteration.  Returns the
concatenated events and the terminating exception, if any. -/
def dt_challenges_evaluator_explicit (dp : Bool) (du : Option String) :
    List (Option String × PassEnv) → List Event × Option Exc
  | [] => ([], none)
  | (sid, env) :: rest =>
    let t := go_ sid dp du env
    match t.result with
    | .ok =>
      let r := dt_challenges_evaluator_explicit dp du rest
      (t.events ++ r.1, r.2)
    | .raised (.nothingLeft _) =>
      let r := dt_challenges_evaluator_explicit dp du rest
      (t.events ++ r.1, r.2)
    | .raised e => (t.events, some e)

/-- No stage whose exception would reach the handler of line 264 raises the
`NothingLeft` kind (the realistic situation: those stages are filesystem and docker
operations). -/
def noNothingLeftInStages (env : PassEnv) : Prop :=
  env.sandboxA.raisesNothingLeft = false ∧
  env.sandboxB.raisesNothingLeft = false ∧
  exceptRaisesNL env.buildGet = false ∧
  env.pushOut.raisesNothingLeft = false

instance (env : PassEnv) : Decidable (noNothingLeftInStages env) := by
  unfold noNothingLeftInStages
  infer_instance

/-- The ChallengeResults synthesized by the handler of lines 266-270. -/
def synthCr (e : Exc) : ChallengeResults :=
  { status := .error, msg := "Uncaught exception:\n" ++ formatExc e, scores := [] }

/-- The ChallengeResults in scope at the report point, as a function of the try-block
outcome: the computed one on normal completion, the synthesized one on a raise. -/
def crAtReport (t : TryResult) : ChallengeResults :=
  match t.out with
  | .ok cr => cr
  | .error e => synthCr e

/-- Whether the first character list occurs as a contiguous run inside the second. -/
def occursIn (needle : List Char) : List Char → Bool
  | [] => needle.isEmpty
  | c :: rest => needle.isPrefixOf (c :: rest) || occursIn needle rest

/-- Whether the string `needle` occurs as a substring of `hay`. -/
def mentions (needle hay : String) : Bool := occursIn needle.data hay.data

/-- A sample job descriptor with the supported protocol. -/
def jobOk : JobFields :=
  { job_id := "job1", challenge_name := "chal", solution_hash := "solhash",
    protocol := "p1", container := "evalimg" }

/-- A sample job descriptor carrying the unsupported protocol p2. -/
def jobP2 : JobFields := { jobOk with protocol := "p2" }

/-- A work-submission response acquiring `jobOk`. -/
def resOk : WorkSubmissionResponse := { job := some jobOk, msg := "" }

/-- A sample successfully parsed ChallengeResults. -/
def crOk : ChallengeResults := { status := .success, msg := "done", scores := [("score", 1)] }

/-- A pass environment in which every external effect succeeds. -/
def envAllOk : PassEnv :=
  { tokenOk := .ok, acquire := .ok resOk, sandboxA := .ok, sandboxB := .ok,
    pullRet := 0, upRet := 0, readResults := .ok crOk,
    buildGet := .ok ("sha", 42), pushOut := .ok, reportOut := .ok }

/-- A pass environment whose work-submission call raises `ConnectionError`. -/
def envConnFail : PassEnv := { envAllOk with acquire := .error (.connectionError "down") }

/-- A pass environment whose work-submission response has no `job_id`. -/
def envNoJobs : PassEnv := { envAllOk with acquire := .ok { job := none, msg := "no jobs" } }

/-- A pass environment acquiring the p2-protocol job, everything else succeeding. -/
def envP2 : PassEnv := { envAllOk with acquire := .ok { job := some jobP2, msg := "" } }

/-- A pass environment in which the artifact image build fails after a successful
evaluation. -/
def envPublishFail : PassEnv := { envAllOk with buildGet := .error (.exc "build failed") }

/-- A pass environment in which `docker-compose pull` exits non-zero. -/
def envPullFail : PassEnv := { envAllOk with pullRet := 1 }

/-- A pass environment in which reading the results file fails. -/
def envReadFail : PassEnv := { envAllOk with readResults := .error (.exc "missing file") }

/-- A pass environment in which the report call itself raises. -/
def envReportFail : PassEnv := { envAllOk with reportOut := .raise (.exc "report down") }

theorem tryPublish_out_error (du : Option String) (job : JobFields) (env : PassEnv)
    (evs : List Event) (cr : ChallengeResults) (e : Exc)
    (h : (tryPublish du job env evs cr).out = .error e) :
    env.buildGet = .error e ∨ env.pushOut = .raise e := by
  unfold tryPublish at h
  rcases du with _ | u
  · simp at h
  · rcases hbg : env.buildGet with e' | ⟨imgId, sz⟩ <;> rw [hbg] at h
    · simp [failTry] at h
      subst h
      exact .inl rfl
    · rcases hpo : env.pushOut with _ | e' <;> rw [hpo] at h
      · simp at h
      · simp at h
        subst h
        exact .inr rfl

theorem tryExtract_out_error (du : Option String) (job : JobFields) (env : PassEnv)
    (evs : List Event) (e : Exc)
    (h : (tryExtract du job env evs).out = .error e) :
    env.buildGet = .error e ∨ env.pushOut = .raise e := by
  unfold tryExtract at h
  exact tryPublish_out_error du job env evs _ e h

theorem tryUp_out_error (du : Option String) (job : JobFields) (env : PassEnv)
    (evs : List Event) (e : Exc)
    (h : (tryUp du job env evs).out = .error e) :
    e = .exc composeMsgUp ∨ env.buildGet = .error e ∨ env.pushOut = .raise e := by
  unfold tryUp at h
  by_cases hu : env.upRet = 0
  · rw [if_pos hu] at h
    exact .inr (tryExtract_out_error du job env _ e h)
  · rw [if_neg hu] at h
    simp [failTry] at h
    exact .inl h.symm

theorem tryRun_out_error (dp : Bool) (du : Option String) (job : JobFields) (env : PassEnv)
    (e : Exc) (h : (tryRun dp du job env).out = .error e) :
    e = .exc composeMsgPull ∨ e = .exc composeMsgUp ∨
      env.buildGet = .error e ∨ env.pushOut = .raise e := by
  unfold tryRun at h
  rcases dp
  · rw [if_neg (by simp)] at h
    exact .inr (tryUp_out_error du job env _ e h)
  · rw [if_pos rfl] at h
    by_cases hp : env.pullRet = 0
    · rw [if_pos hp] at h
      exact .inr (tryUp_out_error du job env _ e h)
    · rw [if_neg hp] at h
      simp [failTry] at h
      exact .inl h.symm

theorem tryBody_out_error (dp : Bool) (du : Option String) (job : JobFields) (env : PassEnv)
    (e : Exc) (h : (tryBody dp du job env).out = .error e) :
    env.sandboxA = .raise e ∨ env.sandboxB = .raise e ∨
      e = .exc protocolAssertionDetail ∨ e = .exc composeMsgPull ∨
      e = .exc composeMsgUp ∨ env.buildGet = .error e ∨ env.pushOut = .raise e := by
  unfold tryBody at h
  rcases hsa : env.sandboxA with _ | e' <;> rw [hsa] at h
  · by_cases hpr : job.protocol = "p1"
    · rw [if_pos hpr] at h
      rcases hsb : env.sandboxB with _ | e' <;> rw [hsb] at h
      · rcases tryRun_out_error dp du job env e h with h1 | h1 | h1 | h1
        · exact .inr (.inr (.inr (.inl h1)))
        · exact .inr (.inr (.inr (.inr (.inl h1))))
        · exact .inr (.inr (.inr (.inr (.inr (.inl h1)))))
        · exact .inr (.inr (.inr (.inr (.inr (.inr h1)))))
      · simp [failTry] at h
        subst h
        exact .inr (.inl rfl)
    · rw [if_neg hpr] at h
      simp [failTry] at h
      exact .inr (.inr (.inl h.symm))
  · simp [failTry] at h
    subst h
    exact .inl rfl

theorem tryBody_not_nothingLeft (dp : Bool) (du : Option String) (job : JobFields)
    (env : PassEnv) (hnl : noNothingLeftInStages env) :
    ∀ m, (tryBody dp du job env).out ≠ .error (.nothingLeft m) := by
  intro m h
  obtain ⟨h1, h2, h3, h4⟩ := hnl
  rcases tryBody_out_error dp du job env _ h with hc | hc | hc | hc | hc | hc | hc
  · rw [hc] at h1
    simp [StageOutcome.raisesNothingLeft, Exc.isNothingLeft] at h1
  · rw [hc] at h2
    simp [StageOutcome.raisesNothingLeft, Exc.isNothingLeft] at h2
  · cases hc
  · cases hc
  · cases hc
  · rw [hc] at h3
    simp [exceptRaisesNL, Exc.isNothingLeft] at h3
  · rw [hc] at h4
    simp [StageOutcome.raisesNothingLeft, Exc.isNothingLeft] at h4

theorem tryPublish_events_no_report (du : Option String) (job : JobFields) (env : PassEnv)
    (evs : List Event) (cr : ChallengeResults)
    (h : ∀ ev ∈ evs, Event.isReport ev = false) :
    ∀ ev ∈ (tryPublish du job env evs cr).events, Event.isReport ev = false := by
  unfold tryPublish
  rcases du with _ | u
  · simpa using h
  · rcases hbg : env.buildGet with e | ⟨i, s⟩
    · intro ev hev
      simp only [failTry, List.mem_append, List.mem_singleton] at hev
      rcases hev with hev | rfl
      · exact h ev hev
      · rfl
    · rcases hpo : env.pushOut with _ | e <;>
      · intro ev hev
        simp only [List.mem_append, List.mem_cons, List.mem_singleton,
          List.not_mem_nil, or_false] at hev
        rcases hev with hev | rfl | rfl
        · exact h ev hev
        · rfl
        · rfl

theorem tryExtract_events_no_report (du : Option String) (job : JobFields) (env : PassEnv)
    (evs : List Event) (h : ∀ ev ∈ evs, Event.isReport ev = false) :
    ∀ ev ∈ (tryExtract du job env evs).events, Event.isReport ev = false := by
  unfold tryExtract
  exact tryPublish_events_no_report du job env evs _ h

theorem tryUp_events_no_report (du : Option String) (job : JobFields) (env : PassEnv)
    (evs : List Event) (h : ∀ ev ∈ evs, Event.isReport ev = false) :
    ∀ ev ∈ (tryUp du job env evs).events, Event.isReport ev = false := by
  have hup : ∀ ev ∈ evs ++ [Event.composeUp], Event.isReport ev = false := by
    intro ev hev
    rcases List.mem_append.1 hev with hev | hev
    · exact h ev hev
    · rcases List.mem_singleton.1 hev with rfl
      rfl
  unfold tryUp
  by_cases hu : env.upRet = 0
  · rw [if_pos hu]
    exact tryExtract_events_no_report du job env _ hup
  · rw [if_neg hu]
    exact hup

theorem tryRun_events_no_report (dp : Bool) (du : Option String) (job : JobFields)
    (env : PassEnv) :
    ∀ ev ∈ (tryRun dp du job env).events, Event.isReport ev = false := by
  unfold tryRun
  rcases dp
  · rw [if_neg (by simp)]
    exact tryUp_events_no_report du job env [] (by simp)
  · rw [if_pos rfl]
    by_cases hp : env.pullRet = 0
    · rw [if_pos hp]
      exact tryUp_events_no_report du job env _ (by simp [Event.isReport])
    · rw [if_neg hp]
      simp [failTry, Event.isReport]

theorem tryBody_events_no_report (dp : Bool) (du : Option String) (job : JobFields)
    (env : PassEnv) :
    ∀ ev ∈ (tryBody dp du job env).events, Event.isReport ev = false := by
  unfold tryBody
  rcases hsa : env.sandboxA with _ | e
  · by_cases hpr : job.protocol = "p1"
    · rw [if_pos hpr]
      rcases hsb : env.sandboxB with _ | e
      · exact tryRun_events_no_report dp du job env
      · simp [failTry]
    · rw [if_neg hpr]
      simp [failTry]
  · simp [failTry]

theorem reportCount_eq_zero (evs : List Event)
    (h : ∀ ev ∈ evs, Event.isReport ev = false) : reportCount evs = 0 := by
  unfold reportCount
  rw [List.length_eq_zero, List.filter_eq_nil_iff]
  intro a ha
  simp [h a ha]

theorem reportCount_append_report (evs : List Event) (jid : String) (st : Stats)
    (stat : ChallengeResultsStatus) :
    reportCount (evs ++ [Event.report jid st stat]) = reportCount evs + 1 := by
  simp [reportCount, List.filter_append, Event.isReport]

theorem finishReport_events (job : JobFields) (env : PassEnv) (t : TryResult)
    (cr : ChallengeResults) :
    (finishReport job env t cr).events =
      t.events ++ [Event.report job.job_id (mkStats cr t.artifacts_image t.size)
        cr.get_status] := by
  unfold finishReport
  rcases env.reportOut <;> rfl

theorem finishReport_finalCr (job : JobFields) (env : PassEnv) (t : TryResult)
    (cr : ChallengeResults) : (finishReport job env t cr).finalCr = some cr := by
  unfold finishReport
  rcases env.reportOut <;> rfl

theorem go_acquired (sid : Option String) (dp : Bool) (du : Option String) (env : PassEnv)
    (res : WorkSubmissionResponse) (job : JobFields)
    (htok : env.tokenOk = .ok) (hacq : env.acquire = .ok res) (hjob : res.job = some job)
    (hnl : ∀ m, (tryBody dp du job env).out ≠ .error (.nothingLeft m)) :
    go_ sid dp du env =
      finishReport job env (tryBody dp du job env) (crAtReport (tryBody dp du job env)) := by
  unfold go_
  rw [htok, hacq]
  simp only [acquisitionOutcome, hjob]
  rcases hto : (tryBody dp du job env).out with e | cr
  · rcases e with m | m | m
    · exact absurd hto (hnl m)
    · simp [crAtReport, hto, synthCr]
    · simp [crAtReport, hto, synthCr]
  · simp [crAtReport, hto]

/-- C1: for every acquired job (the server response carries a `job_id`), one pass of
`go_` reaches the report point with exactly one ChallengeResults in scope, makes
exactly one `dtserver_report_job` call, and — whenever the sandbox build, the runner,
result extraction or artifact publishing raised an exception (other than
`NothingLeft`, excluded by `noNothingLeftInStages`) — that ChallengeResults is the
synthesized status-ERROR one carrying the formatted failure detail as its message. -/
theorem go_reports_exactly_once (sid : Option String) (dp : Bool) (du : Option String)
    (env : PassEnv) (res : WorkSubmissionResponse) (job : JobFields)
    (htok : env.tokenOk = .ok) (hacq : env.acquire = .ok res) (hjob : res.job = some job)
    (hnl : noNothingLeftInStages env) :
    reportCount (go_ sid dp du env).events = 1 ∧
    (go_ sid dp du env).finalCr = some (crAtReport (tryBody dp du job env)) ∧
    ∀ e, (tryBody dp du job env).out = .error e →
      crAtReport (tryBody dp du job env) =
        { status := .error, msg := "Uncaught exception:\n" ++ formatExc e, scores := [] } := by
  have hnl' := tryBody_not_nothingLeft dp du job env hnl
  rw [go_acquired sid dp du env res job htok hacq hjob hnl']
  refine ⟨?_, finishReport_finalCr _ _ _ _, ?_⟩
  · rw [finishReport_events, reportCount_append_report,
      reportCount_eq_zero _ (tryBody_events_no_report dp du job env)]
  · intro e he
    simp [crAtReport, he, synthCr]

/-- Witness for C1 at an all-succeeding concrete environment. -/
theorem go_reports_exactly_once_witness :
    reportCount (go_ none true none envAllOk).events = 1 ∧
    (go_ none true none envAllOk).finalCr =
      some (crAtReport (tryBody true none jobOk envAllOk)) :=
  have h := go_reports_exactly_once none true none envAllOk resOk jobOk rfl rfl rfl (by decide)
  ⟨h.1, h.2.1⟩

theorem mkStats_scores (cr : ChallengeResults) (art : Option String) (sz : Option Int) :
    (mkStats cr art sz).scores = cr.get_stats := by
  unfold mkStats
  rcases art with _ | img
  · rfl
  · by_cases h : img = "" <;> simp [h]

theorem mkStats_artifacts_some (cr : ChallengeResults) (art : Option String)
    (sz : Option Int) (a : Artifacts) (h : (mkStats cr art sz).artifacts = some a) :
    ∃ img, art = some img ∧ a = { size := sz, image := img } := by
  rcases art with _ | img
  · simp [mkStats] at h
  · by_cases hi : img = ""
    · simp [mkStats, hi] at h
    · simp [mkStats, hi] at h
      exact ⟨img, rfl, h.symm⟩

theorem mkStats_artifacts_of_ne (cr : ChallengeResults) (sz : Option Int) (img : String)
    (h : img ≠ "") :
    mkStats cr (some img) sz =
      { scores := cr.get_stats, artifacts := some { size := sz, image := img } } := by
  simp [mkStats, h]

theorem artTag_ne_empty (u jid imgId : String) : artTag u jid imgId ≠ "" := by
  intro h
  have hd : (artTag u jid imgId).data = [] := by rw [h]
  simp [artTag] at hd

theorem tryPublish_out_ok (du : Option String) (job : JobFields) (env : PassEnv)
    (evs : List Event) (cr : ChallengeResults)
    (hpub : du = none ∨ ∃ i s, env.buildGet = .ok (i, s) ∧ env.pushOut = .ok) :
    (tryPublish du job env evs cr).out = .ok cr := by
  rcases hpub with h | ⟨i, s, hbg, hpo⟩
  · subst h
    rfl
  · unfold tryPublish
    rcases du with _ | u
    · rfl
    · rw [hbg, hpo]

theorem tryBody_runner_ok (dp : Bool) (du : Option String) (job : JobFields) (env : PassEnv)
    (hA : env.sandboxA = .ok) (hpr : job.protocol = "p1") (hB : env.sandboxB = .ok)
    (hpull : dp = false ∨ env.pullRet = 0) (hup : env.upRet = 0) :
    tryBody dp du job env =
      tryPublish du job env ((if dp then [Event.composePull] else []) ++ [Event.composeUp])
        (extractedCr env.readResults) := by
  unfold tryBody
  rw [hA, if_pos hpr, hB]
  unfold tryRun
  rcases dp
  · show tryUp du job env [] = _
    unfold tryUp
    rw [if_pos hup]
    rfl
  · have hp0 : env.pullRet = 0 := by
      rcases hpull with h | h
      · cases h
      · exact h
    rw [if_pos rfl, if_pos hp0]
    unfold tryUp
    rw [if_pos hup]
    rfl

theorem tryBody_protocol (dp : Bool) (du : Option String) (job : JobFields) (env : PassEnv)
    (hA : env.sandboxA = .ok) (hpr : job.protocol ≠ "p1") :
    tryBody dp du job env = failTry [] (.exc protocolAssertionDetail) := by
  unfold tryBody
  rw [hA, if_neg hpr]

theorem tryBody_pull_fails (du : Option String) (job : JobFields) (env : PassEnv)
    (hA : env.sandboxA = .ok) (hpr : job.protocol = "p1") (hB : env.sandboxB = .ok)
    (hp : env.pullRet ≠ 0) :
    tryBody true du job env = failTry [Event.composePull] (.exc composeMsgPull) := by
  unfold tryBody
  rw [hA, if_pos hpr, hB]
  unfold tryRun
  rw [if_pos rfl, if_neg hp]

theorem tryBody_up_fails (dp : Bool) (du : Option String) (job : JobFields) (env : PassEnv)
    (hA : env.sandboxA = .ok) (hpr : job.protocol = "p1") (hB : env.sandboxB = .ok)
    (hpull : dp = false ∨ env.pullRet = 0) (hup : env.upRet ≠ 0) :
    tryBody dp du job env =
      failTry ((if dp then [Event.composePull] else []) ++ [Event.composeUp])
        (.exc composeMsgUp) := by
  unfold tryBody
  rw [hA, if_pos hpr, hB]
  unfold tryRun
  rcases dp
  · show tryUp du job env [] = _
    unfold tryUp
    rw [if_neg hup]
    rfl
  · have hp0 : env.pullRet = 0 := by
      rcases hpull with h | h
      · cases h
      · exact h
    rw [if_pos rfl, if_pos hp0]
    unfold tryUp
    rw [if_neg hup]
    rfl

theorem tryPublish_mem (du : Option String) (job : JobFields) (env : PassEnv)
    (evs : List Event) (cr : ChallengeResults) (ev : Event)
    (h : ev ∈ (tryPublish du job env evs cr).events) :
    ev ∈ evs ∨ ev = .publishBuild ∨ ev = .publishPush := by
  unfold tryPublish at h
  rcases du with _ | u
  · exact .inl h
  · rcases hbg : env.buildGet with e | ⟨i, s⟩ <;> rw [hbg] at h
    · simp only [failTry, List.mem_append, List.mem_singleton] at h
      rcases h with h | rfl
      · exact .inl h
      · exact .inr (.inl rfl)
    · rcases hpo : env.pushOut with _ | e <;> rw [hpo] at h <;>
      · simp only [List.mem_append, List.mem_cons, List.mem_singleton,
          List.not_mem_nil, or_false] at h
        rcases h with h | rfl | rfl
        · exact .inl h
        · exact .inr (.inl rfl)
        · exact .inr (.inr rfl)

theorem tryBody_mem (dp : Bool) (du : Option String) (job : JobFields) (env : PassEnv)
    (ev : Event) (h : ev ∈ (tryBody dp du job env).events) :
    (dp = true ∧ ev = .composePull) ∨ ev = .composeUp ∨
      ev = .publishBuild ∨ ev = .publishPush := by
  unfold tryBody at h
  rcases hsa : env.sandboxA with _ | e <;> rw [hsa] at h
  · by_cases hpr : job.protocol = "p1"
    · rw [if_pos hpr] at h
      rcases hsb : env.sandboxB with _ | e <;> rw [hsb] at h
      · unfold tryRun at h
        rcases dp
        · rw [if_neg (by simp)] at h
          unfold tryUp at h
          by_cases hu : env.upRet = 0
          · rw [if_pos hu] at h
            unfold tryExtract at h
            rcases tryPublish_mem du job env _ _ ev h with h1 | h1 | h1
            · simp at h1
              exact .inr (.inl h1)
            · exact .inr (.inr (.inl h1))
            · exact .inr (.inr (.inr h1))
          · rw [if_neg hu] at h
            simp [failTry] at h
            exact .inr (.inl h)
        · rw [if_pos rfl] at h
          by_cases hp : env.pullRet = 0
          · rw [if_pos hp] at h
            unfold tryUp at h
            by_cases hu : env.upRet = 0
            · rw [if_pos hu] at h
              unfold tryExtract at h
              rcases tryPublish_mem du job env _ _ ev h with h1 | h1 | h1
              · simp at h1
                rcases h1 with h1 | h1
                · exact .inl ⟨rfl, h1⟩
                · exact .inr (.inl h1)
              · exact .inr (.inr (.inl h1))
              · exact .inr (.inr (.inr h1))
            · rw [if_neg hu] at h
              simp [failTry] at h
              rcases h with h | h
              · exact .inl ⟨rfl, h⟩
              · exact .inr (.inl h)
          · rw [if_neg hp] at h
            simp [failTry] at h
            exact .inl ⟨rfl, h⟩
      · simp [failTry] at h
    · rw [if_neg hpr] at h
      simp [failTry] at h
  · simp [failTry] at h

theorem finishReport_result_raised (job : JobFields) (env : PassEnv) (t : TryResult)
    (cr : ChallengeResults) (e : Exc) (h : env.reportOut = .raise e) :
    (finishReport job env t cr).result = .raised e := by
  unfold finishReport
  rw [h]

theorem go_report_mem (sid : Option String) (dp : Bool) (du : Option String) (env : PassEnv)
    (jid : String) (st : Stats) (stat : ChallengeResultsStatus)
    (h : Event.report jid st stat ∈ (go_ sid dp du env).events) :
    ∃ res job, env.tokenOk = .ok ∧ env.acquire = .ok res ∧ res.job = some job ∧
      jid = job.job_id ∧
      st = mkStats (crAtReport (tryBody dp du job env))
        (tryBody dp du job env).artifacts_image (tryBody dp du job env).size := by
  unfold go_ at h
  rcases htok : env.tokenOk with _ | e <;> rw [htok] at h
  · rcases hacq : env.acquire with e | res <;> rw [hacq] at h
    · simp at h
    · rcases hjob : res.job with _ | job <;>
        simp only [acquisitionOutcome, hjob] at h
      · simp at h
      · rcases hout : (tryBody dp du job env).out with e | cr <;> rw [hout] at h
        · rcases e with m | m | m
          · exact absurd (tryBody_events_no_report dp du job env _ h) (by simp [Event.isReport])
          all_goals
          · rw [finishReport_events] at h
            rcases List.mem_append.1 h with h1 | h1
            · exact absurd (tryBody_events_no_report dp du job env _ h1)
                (by simp [Event.isReport])
            · rcases List.mem_singleton.1 h1 with h2
              injection h2 with e1 e2 e3
              exact ⟨res, job, rfl, rfl, hjob, e1,
                by rw [e2]; simp [crAtReport, hout, synthCr]⟩
        · rw [finishReport_events] at h
          rcases List.mem_append.1 h with h1 | h1
          · exact absurd (tryBody_events_no_report dp du job env _ h1)
              (by simp [Event.isReport])
          · rcases List.mem_singleton.1 h1 with h2
            injection h2 with e1 e2 e3
            exact ⟨res, job, rfl, rfl, hjob, e1,
              by rw [e2]; simp [crAtReport, hout, synthCr]⟩
  · simp at h

theorem tryBody_art (dp : Bool) (du : Option String) (job : JobFields) (env : PassEnv) :
    ((tryBody dp du job env).artifacts_image = none ∧ (tryBody dp du job env).size = none) ∨
    ∃ u i s, du = some u ∧ env.buildGet = .ok (i, s) ∧
      (tryBody dp du job env).artifacts_image = some (artTag u job.job_id i) ∧
      (tryBody dp du job env).size = some s := by
  unfold tryBody
  rcases hsa : env.sandboxA with _ | e
  · by_cases hpr : job.protocol = "p1"
    · rw [if_pos hpr]
      rcases hsb : env.sandboxB with _ | e
      · unfold tryRun
        rcases dp
        · rw [if_neg (by simp)]
          unfold tryUp
          by_cases hu : env.upRet = 0
          · rw [if_pos hu]
            unfold tryExtract tryPublish
            rcases du with _ | u
            · exact .inl ⟨rfl, rfl⟩
            · rcases hbg : env.buildGet with e | ⟨i, s⟩
              · exact .inl ⟨rfl, rfl⟩
              · rcases env.pushOut with _ | e <;>
                  exact .inr ⟨u, i, s, rfl, rfl, rfl, rfl⟩
          · rw [if_neg hu]
            exact .inl ⟨rfl, rfl⟩
        · rw [if_pos rfl]
          by_cases hp : env.pullRet = 0
          · rw [if_pos hp]
            unfold tryUp
            by_cases hu : env.upRet = 0
            · rw [if_pos hu]
              unfold tryExtract tryPublish
              rcases du with _ | u
              · exact .inl ⟨rfl, rfl⟩
              · rcases hbg : env.buildGet with e | ⟨i, s⟩
                · exact .inl ⟨rfl, rfl⟩
                · rcases env.pushOut with _ | e <;>
                    exact .inr ⟨u, i, s, rfl, rfl, rfl, rfl⟩
            · rw [if_neg hu]
              exact .inl ⟨rfl, rfl⟩
          · rw [if_neg hp]
            exact .inl ⟨rfl, rfl⟩
      · exact .inl ⟨rfl, rfl⟩
    · rw [if_neg hpr]
      exact .inl ⟨rfl, rfl⟩
  · exact .inl ⟨rfl, rfl⟩

theorem tryPublish_events_prefix (du : Option String) (job : JobFields) (env : PassEnv)
    (evs : List Event) (cr : ChallengeResults) :
    ∃ suf, (tryPublish du job env evs cr).events = evs ++ suf := by
  unfold tryPublish
  rcases du with _ | u
  · exact ⟨[], (List.append_nil evs).symm⟩
  · rcases hbg : env.buildGet with e | ⟨i, s⟩
    · exact ⟨[Event.publishBuild], rfl⟩
    · rcases env.pushOut with _ | e <;>
        exact ⟨[Event.publishBuild, Event.publishPush], rfl⟩

theorem go_events_shape (sid : Option String) (dp : Bool) (du : Option String)
    (env : PassEnv) (res : WorkSubmissionResponse) (job : JobFields)
    (htok : env.tokenOk = .ok) (hacq : env.acquire = .ok res) (hjob : res.job = some job) :
    (go_ sid dp du env).events = (tryBody dp du job env).events ∨
    ∃ ev, Event.isReport ev = true ∧
      (go_ sid dp du env).events = (tryBody dp du job env).events ++ [ev] := by
  unfold go_
  rw [htok, hacq]
  simp only [acquisitionOutcome, hjob]
  rcases hout : (tryBody dp du job env).out with e | cr
  · rcases e with m | m | m
    · exact .inl rfl
    · refine .inr ⟨_, ?_, finishReport_events _ _ _ _⟩
      rfl
    · refine .inr ⟨_, ?_, finishReport_events _ _ _ _⟩
      rfl
  · refine .inr ⟨_, ?_, finishReport_events _ _ _ _⟩
    rfl

theorem go_mem_event (sid : Option String) (dp : Bool) (du : Option String) (env : PassEnv)
    (ev : Event) (h : ev ∈ (go_ sid dp du env).events) :
    (∃ res job, env.acquire = .ok res ∧ res.job = some job ∧
        ev ∈ (tryBody dp du job env).events) ∨ Event.isReport ev = true := by
  unfold go_ at h
  rcases htok : env.tokenOk with _ | e <;> rw [htok] at h
  · rcases hacq : env.acquire with e | res <;> rw [hacq] at h
    · simp at h
    · rcases hjob : res.job with _ | job <;> simp only [acquisitionOutcome, hjob] at h
      · simp at h
      · rcases hout : (tryBody dp du job env).out with e | cr <;> rw [hout] at h
        · rcases e with m | m | m
          · exact .inl ⟨res, job, rfl, hjob, h⟩
          all_goals
          · rw [finishReport_events] at h
            rcases List.mem_append.1 h with h1 | h1
            · exact .inl ⟨res, job, rfl, hjob, h1⟩
            · rcases List.mem_singleton.1 h1 with rfl
              exact .inr rfl
        · rw [finishReport_events] at h
          rcases List.mem_append.1 h with h1 | h1
          · exact .inl ⟨res, job, rfl, hjob, h1⟩
          · rcases List.mem_singleton.1 h1 with rfl
            exact .inr rfl
  · simp at h

theorem tryBody_events_pull_head (du : Option String) (job : JobFields) (env : PassEnv)
    (hA : env.sandboxA = .ok) (hpr : job.protocol = "p1") (hB : env.sandboxB = .ok) :
    ∃ tail, (tryBody true du job env).events = Event.composePull :: tail := by
  by_cases hp : env.pullRet = 0
  · by_cases hu : env.upRet = 0
    · rw [tryBody_runner_ok true du job env hA hpr hB (.inr hp) hu]
      obtain ⟨suf, hs⟩ := tryPublish_events_prefix du job env _ (extractedCr env.readResults)
      exact ⟨_, by rw [hs]; rfl⟩
    · rw [tryBody_up_fails true du job env hA hpr hB (.inr hp) hu]
      exact ⟨_, rfl⟩
  · rw [tryBody_pull_fails du job env hA hpr hB hp]
    exact ⟨_, rfl⟩

theorem explicit_cons (dp : Bool) (du sid : Option String) (env : PassEnv)
    (rest : List (Option String × PassEnv)) :
    dt_challenges_evaluator_explicit dp du ((sid, env) :: rest) =
      match (go_ sid dp du env).result with
      | .ok =>
        ((go_ sid dp du env).events ++ (dt_challenges_evaluator_explicit dp du rest).1,
          (dt_challenges_evaluator_explicit dp du rest).2)
      | .raised (.nothingLeft _) =>
        ((go_ sid dp du env).events ++ (dt_challenges_evaluator_explicit dp du rest).1,
          (dt_challenges_evaluator_explicit dp du rest).2)
      | .raised e => ((go_ sid dp du env).events, some e) := rfl

/-- C5: acquisition signals NothingAvailable exactly when the work-submission response
lacks a `job_id`, and the raised `NothingLeft` carries the explanation message of the
server; such a pass emits no events (in particular no report call), and the
explicit-list mode swallows it and proceeds with the remaining ids unchanged. -/
theorem acquisition_nothing_available (sid : Option String) (dp : Bool) (du : Option String)
    (env : PassEnv) (res : WorkSubmissionResponse)
    (rest : List (Option String × PassEnv))
    (htok : env.tokenOk = .ok) (hacq : env.acquire = .ok res) :
    ((∃ m, acquisitionOutcome res = .error (.nothingLeft m)) ↔ res.job = none) ∧
    (∀ m, acquisitionOutcome res = .error (.nothingLeft m) →
        m = "Could not find jobs: " ++ res.msg) ∧
    (res.job = none →
        (go_ sid dp du env).result =
          .raised (.nothingLeft ("Could not find jobs: " ++ res.msg)) ∧
        (go_ sid dp du env).events = [] ∧
        reportCount (go_ sid dp du env).events = 0 ∧
        dt_challenges_evaluator_explicit dp du ((sid, env) :: rest) =
          dt_challenges_evaluator_explicit dp du rest) := by
  refine ⟨⟨?_, ?_⟩, ?_, ?_⟩
  · rintro ⟨m, hm⟩
    unfold acquisitionOutcome at hm
    rcases hjob : res.job with _ | job
    · rfl
    · rw [hjob] at hm
      cases hm
  · intro hjob
    exact ⟨_, by unfold acquisitionOutcome; rw [hjob]⟩
  · intro m hm
    unfold acquisitionOutcome at hm
    rcases hjob : res.job with _ | job <;> rw [hjob] at hm
    · injection hm with h1
      injection h1 with h2
      exact h2.symm
    · cases hm
  · intro hjob
    have hgo : go_ sid dp du env =
        { events := [],
          result := .raised (.nothingLeft ("Could not find jobs: " ++ res.msg)),
          finalCr := none } := by
      unfold go_
      rw [htok, hacq]
      simp only [acquisitionOutcome, hjob]
    refine ⟨by rw [hgo], by rw [hgo], by rw [hgo]; rfl, ?_⟩
    rw [explicit_cons, hgo]
    simp

/-- Witness for C5 at a concrete no-jobs environment. -/
theorem acquisition_nothing_available_witness :
    (go_ none false none envNoJobs).result =
      .raised (.nothingLeft ("Could not find jobs: " ++ "no jobs")) ∧
    (go_ none false none envNoJobs).events = [] ∧
    reportCount (go_ none false none envNoJobs).events = 0 ∧
    dt_challenges_evaluator_explicit false none [(none, envNoJobs)] =
      dt_challenges_evaluator_explicit false none [] :=
  (acquisition_nothing_available none false none envNoJobs
    { job := none, msg := "no jobs" } [] rfl rfl).2.2 rfl

/-- C9: in the runner, `docker-compose pull` is attempted (and first) only when
pulling is enabled; a non-zero pull exit fails the job before `up` is ever invoked,
and a non-zero up exit likewise fails the job — both surfaced as the same generic
exception kind, whose message (`composeMsgPull` resp. `composeMsgUp`) is preserved
inside the reported synthesized ERROR result. -/
theorem runner_pull_before_up (sid : Option String) (dp : Bool) (du : Option String)
    (env : PassEnv) (res : WorkSubmissionResponse) (job : JobFields)
    (htok : env.tokenOk = .ok) (hacq : env.acquire = .ok res) (hjob : res.job = some job)
    (hA : env.sandboxA = .ok) (hpr : job.protocol = "p1") (hB : env.sandboxB = .ok) :
    (dp = false → Event.composePull ∉ (go_ sid dp du env).events) ∧
    (dp = true → ∃ tail, (go_ sid dp du env).events = Event.composePull :: tail) ∧
    (dp = true → env.pullRet ≠ 0 →
        Event.composeUp ∉ (go_ sid dp du env).events ∧
        reportCount (go_ sid dp du env).events = 1 ∧
        (go_ sid dp du env).finalCr = some (synthCr (.exc composeMsgPull))) ∧
    ((dp = false ∨ env.pullRet = 0) → env.upRet ≠ 0 →
        reportCount (go_ sid dp du env).events = 1 ∧
        (go_ sid dp du env).finalCr = some (synthCr (.exc composeMsgUp))) := by
  refine ⟨?_, ?_, ?_, ?_⟩
  · rintro rfl hmem
    rcases go_mem_event sid false du env _ hmem with ⟨res2, job2, _, _, h2⟩ | h2
    · rcases tryBody_mem false du job2 env _ h2 with ⟨h3, _⟩ | h3 | h3 | h3 <;> cases h3
    · cases h2
  · rintro rfl
    obtain ⟨tail0, htail⟩ := tryBody_events_pull_head du job env hA hpr hB
    rcases go_events_shape sid true du env res job htok hacq hjob with hsh | ⟨ev, _, hsh⟩
    · exact ⟨tail0, by rw [hsh, htail]⟩
    · exact ⟨tail0 ++ [ev], by rw [hsh, htail]; rfl⟩
  · rintro rfl hp
    have hbody := tryBody_pull_fails du job env hA hpr hB hp
    have hnl : ∀ m, (tryBody true du job env).out ≠ .error (.nothingLeft m) := by
      intro m h
      rw [hbody] at h
      simp [failTry] at h
    have hgo := go_acquired sid true du env res job htok hacq hjob hnl
    rw [hgo, hbody]
    rw [finishReport_events]
    refine ⟨by simp [failTry], by simp [reportCount, Event.isReport, failTry], ?_⟩
    rw [finishReport_finalCr]
    rfl
  · intro hpull hup
    have hbody := tryBody_up_fails dp du job env hA hpr hB hpull hup
    have hnl : ∀ m, (tryBody dp du job env).out ≠ .error (.nothingLeft m) := by
      intro m h
      rw [hbody] at h
      simp [failTry] at h
    have hgo := go_acquired sid dp du env res job htok hacq hjob hnl
    rw [hgo, hbody, finishReport_events]
    refine ⟨?_, ?_⟩
    · rcases dp <;> simp [reportCount, Event.isReport, failTry, List.filter_append]
    · rw [finishReport_finalCr]
      rfl

/-- Witness for C9 at a concrete environment whose pull step exits non-zero. -/
theorem runner_pull_before_up_witness :
    Event.composeUp ∉ (go_ none true none envPullFail).events ∧
    reportCount (go_ none true none envPullFail).events = 1 ∧
    (go_ none true none envPullFail).finalCr = some (synthCr (.exc composeMsgPull)) :=
  (runner_pull_before_up none true none envPullFail resOk jobOk
    rfl rfl rfl rfl rfl rfl).2.2.1 rfl (by decide)

/-- C7: a failure while reading the results file is contained: the reported
ChallengeResults is the synthesized status-ERROR one whose message carries the
captured failure trace, exactly one report call is made, and the stats mapping of that
report carries an empty — but well-defined — scores mapping. -/
theorem extraction_contained (sid : Option String) (dp : Bool) (du : Option String)
    (env : PassEnv) (res : WorkSubmissionResponse) (job : JobFields) (e : Exc)
    (htok : env.tokenOk = .ok) (hacq : env.acquire = .ok res) (hjob : res.job = some job)
    (hA : env.sandboxA = .ok) (hpr : job.protocol = "p1") (hB : env.sandboxB = .ok)
    (hpull : dp = false ∨ env.pullRet = 0) (hup : env.upRet = 0)
    (hread : env.readResults = .error e)
    (hpub : du = none ∨ ∃ i s, env.buildGet = .ok (i, s) ∧ env.pushOut = .ok) :
    (go_ sid dp du env).finalCr =
      some { status := .error,
             msg := "Could not read the challenge results:\n" ++ formatExc e,
             scores := [] } ∧
    reportCount (go_ sid dp du env).events = 1 ∧
    ∀ jid st stat, Event.report jid st stat ∈ (go_ sid dp du env).events →
      st.scores = [] := by
  have hbody := tryBody_runner_ok dp du job env hA hpr hB hpull hup
  have hcr : extractedCr env.readResults =
      { status := .error, msg := "Could not read the challenge results:\n" ++ formatExc e,
        scores := [] } := by
    rw [hread]
    rfl
  have hout : (tryBody dp du job env).out = .ok (extractedCr env.readResults) := by
    rw [hbody]
    exact tryPublish_out_ok du job env _ _ hpub
  have hnl : ∀ m, (tryBody dp du job env).out ≠ .error (.nothingLeft m) := by
    intro m h
    rw [hout] at h
    cases h
  have hgo := go_acquired sid dp du env res job htok hacq hjob hnl
  refine ⟨?_, ?_, ?_⟩
  · rw [hgo, finishReport_finalCr]
    simp [crAtReport, hout, hcr]
  · rw [hgo, finishReport_events, reportCount_append_report,
      reportCount_eq_zero _ (tryBody_events_no_report dp du job env)]
  · intro jid st stat hmem
    obtain ⟨res2, job2, _, hacq2, hjob2, _, hst⟩ := go_report_mem sid dp du env jid st stat hmem
    have hres : res2 = res := by
      rw [hacq] at hacq2
      exact (Except.ok.inj hacq2).symm
    subst hres
    have hjobeq : job2 = job := by
      rw [hjob] at hjob2
      exact (Option.some.inj hjob2).symm
    subst hjobeq
    rw [hst, mkStats_scores]
    simp [crAtReport, hout, hcr, ChallengeResults.get_stats]

/-- Witness for C7 at a concrete environment whose results file cannot be read. -/
theorem extraction_contained_witness :
    (go_ none false none envReadFail).finalCr =
      some { status := .error,
             msg := "Could not read the challenge results:\n" ++
               formatExc (.exc "missing file"),
             scores := [] } ∧
    reportCount (go_ none false none envReadFail).events = 1 :=
  have h := extraction_contained none false none envReadFail resOk jobOk
    (.exc "missing file") rfl rfl rfl rfl rfl rfl (.inl rfl) rfl rfl (.inl rfl)
  ⟨h.1, h.2.1⟩

/-- C8: when no docker username is configured the publisher is skipped and every
report call carries a stats payload without any artifacts entry; conversely an
artifacts entry (with its image tag and size) is present only when a username is
configured and the image build and digest resolution succeeded. -/
theorem artifacts_key_iff_publishing (sid : Option String) (dp : Bool) (du : Option String)
    (env : PassEnv) :
    (du = none → ∀ jid st stat, Event.report jid st stat ∈ (go_ sid dp du env).events →
        st.artifacts = none) ∧
    (∀ jid st stat a, Event.report jid st stat ∈ (go_ sid dp du env).events →
        st.artifacts = some a →
        ∃ u i s, du = some u ∧ env.buildGet = .ok (i, s) ∧
          a.image = artTag u jid i ∧ a.size = some s) := by
  constructor
  · intro hdu jid st stat hmem
    obtain ⟨res, job, _, _, _, _, hst⟩ := go_report_mem sid dp du env jid st stat hmem
    rcases tryBody_art dp du job env with ⟨ha, _⟩ | ⟨u, i, s, hu, _, _, _⟩
    · rw [hst, ha]
      rfl
    · rw [hdu] at hu
      cases hu
  · intro jid st stat a hmem hart
    obtain ⟨res, job, _, _, _, hjid, hst⟩ := go_report_mem sid dp du env jid st stat hmem
    rw [hst] at hart
    obtain ⟨img, himg, ha⟩ := mkStats_artifacts_some _ _ _ _ hart
    rcases tryBody_art dp du job env with ⟨hnone, _⟩ | ⟨u, i, s, hu, hbg, hsome, hsz⟩
    · rw [hnone] at himg
      cases himg
    · have himg2 : img = artTag u job.job_id i :=
        Option.some.inj (himg.symm.trans hsome)
      refine ⟨u, i, s, hu, hbg, ?_, ?_⟩
      · rw [ha]
        show img = artTag u jid i
        rw [himg2, hjid]
      · rw [ha]
        show (tryBody dp du job env).size = some s
        exact hsz

/-- Witness for C8: with no username the concrete all-ok pass reports a stats payload
without an artifacts entry. -/
theorem artifacts_key_iff_publishing_witness :
    ({ scores := [("score", 1)], artifacts := none } : Stats).artifacts = none :=
  (artifacts_key_iff_publishing none true none envAllOk).1 rfl "job1"
    { scores := [("score", 1)], artifacts := none } .success (by decide)

theorem loopStep_cases (dp : Bool) (du : Option String) (m : ℚ) (env : PassEnv) :
    (loopStep dp du m env).events = (go_ none dp du env).events ∧
    (loopStep dp du m env).sleep = base_interval * (loopStep dp du m env).multiplierAfter ∧
    ((go_ none dp du env).result = .ok → (loopStep dp du m env).multiplierAfter = 1) ∧
    (∀ s, (go_ none dp du env).result = .raised (.nothingLeft s) →
        (loopStep dp du m env).multiplierAfter = min m max_multiplier) ∧
    (∀ e, (go_ none dp du env).result = .raised e → e.isNothingLeft = false →
        (loopStep dp du m env).multiplierAfter = min m max_multiplier * (3 / 2)) := by
  simp only [loopStep]
  rcases hres : (go_ none dp du env).result with _ | e
  · refine ⟨trivial, trivial, fun _ => rfl, ?_, ?_⟩
    · intro s h
      cases h
    · intro e h
      cases h
  · rcases e with s | s | s
    · refine ⟨trivial, trivial, ?_, fun _ _ => rfl, ?_⟩
      · intro h
        cases h
      · intro e' h hf
        injection h with h1
        subst h1
        simp [Exc.isNothingLeft] at hf
    · refine ⟨trivial, trivial, ?_, ?_, fun _ _ _ => rfl⟩
      · intro h
        cases h
      · intro s' h
        injection h with h1
        cases h1
    · refine ⟨trivial, trivial, ?_, ?_, fun _ _ _ => rfl⟩
      · intro h
        cases h
      · intro s' h
        injection h with h1
        cases h1

theorem loopStep_multiplier_lower (dp : Bool) (du : Option String) (m : ℚ) (env : PassEnv)
    (h1 : 1 ≤ m) : 1 ≤ (loopStep dp du m env).multiplierAfter := by
  have hmin : (1 : ℚ) ≤ min m max_multiplier := le_min h1 (by norm_num [max_multiplier])
  simp only [loopStep]
  rcases (go_ none dp du env).result with _ | e
  · norm_num
  · rcases e with s | s | s
    · exact hmin
    · linarith
    · linarith

theorem continuous_cons (dp : Bool) (du : Option String) (m : ℚ) (env : PassEnv)
    (rest : List PassEnv) :
    dt_challenges_evaluator_continuous dp du m (env :: rest) =
      loopStep dp du m env ::
        dt_challenges_evaluator_continuous dp du (loopStep dp du m env).multiplierAfter
          rest := rfl

theorem continuous_length (dp : Bool) (du : Option String) :
    ∀ (envs : List PassEnv) (m : ℚ),
      (dt_challenges_evaluator_continuous dp du m envs).length = envs.length := by
  intro envs
  induction envs with
  | nil => intro m; rfl
  | cons env rest ih =>
    intro m
    rw [continuous_cons, List.length_cons, List.length_cons, ih]

theorem continuous_sleeps (dp : Bool) (du : Option String) :
    ∀ (envs : List PassEnv) (m : ℚ), 1 ≤ m →
      ∀ r ∈ dt_challenges_evaluator_continuous dp du m envs,
        r.sleep = base_interval * r.multiplierAfter ∧ base_interval ≤ r.sleep := by
  intro envs
  induction envs with
  | nil =>
    intro m h1 r hr
    cases hr
  | cons env rest ih =>
    intro m h1 r hr
    rw [continuous_cons] at hr
    rcases List.mem_cons.1 hr with rfl | hr
    · have hlow := loopStep_multiplier_lower dp du m env h1
      have hsleep := (loopStep_cases dp du m env).2.1
      refine ⟨hsleep, ?_⟩
      rw [hsleep]
      have hb : (0 : ℚ) < base_interval := by norm_num [base_interval]
      nlinarith
    · exact ih _ (loopStep_multiplier_lower dp du m env h1) r hr

/-- C10: in continuous mode one sleep of `base_interval` times the updated multiplier
follows every pass — successful passes and NothingAvailable passes included, not only
transient failures — and since the multiplier never drops below 1 the sleep is always
at least the base interval. -/
theorem sleep_after_every_pass (dp : Bool) (du : Option String) (m : ℚ)
    (envs : List PassEnv) (h1 : 1 ≤ m) :
    (dt_challenges_evaluator_continuous dp du m envs).length = envs.length ∧
    ∀ r ∈ dt_challenges_evaluator_continuous dp du m envs,
      r.sleep = base_interval * r.multiplierAfter ∧ base_interval ≤ r.sleep :=
  ⟨continuous_length dp du envs m, continuous_sleeps dp du envs m h1⟩

/-- Witness for C10 at a one-pass concrete run. -/
theorem sleep_after_every_pass_witness :
    (dt_challenges_evaluator_continuous false none 1 [envAllOk]).length = 1 ∧
    (loopStep false none 1 envAllOk).sleep =
      base_interval * (loopStep false none 1 envAllOk).multiplierAfter ∧
    base_interval ≤ (loopStep false none 1 envAllOk).sleep :=
  have h := sleep_after_every_pass false none 1 [envAllOk] (by norm_num)
  ⟨h.1, h.2 (loopStep false none 1 envAllOk)
    (by rw [continuous_cons]; exact List.mem_cons_self _ _)⟩

/-- C2 counterexample: running the continuous loop from multiplier 1 over six
consecutive ConnectionError passes and then one NothingAvailable pass, the sixth sleep
is 3645/64 seconds — strictly more than ten times the base interval — and the
multiplier after the NothingAvailable pass is 10, not 1: the sleep interval is not
capped at ten times the base interval, and a pass that ends in NothingAvailable does
not reset the multiplier to 1. -/
theorem backoff_claim_counterexample :
    (dt_challenges_evaluator_continuous true none 1
        (List.replicate 6 envConnFail ++ [envNoJobs])).map IterRecord.sleep =
      [15 / 2, 45 / 4, 135 / 8, 405 / 16, 1215 / 32, 3645 / 64, 50] ∧
    10 * base_interval < (3645 / 64 : ℚ) ∧
    (dt_challenges_evaluator_continuous true none 1
        (List.replicate 6 envConnFail ++ [envNoJobs])).map IterRecord.multiplierAfter =
      [3 / 2, 9 / 4, 27 / 8, 81 / 16, 243 / 32, 729 / 64, 10] ∧
    (10 : ℚ) ≠ 1 := by
  have hconn : (go_ none true none envConnFail).result =
      .raised (.connectionError "down") := rfl
  have hnlr : (go_ none true none envNoJobs).result =
      .raised (.nothingLeft ("Could not find jobs: " ++ "no jobs")) := rfl
  have hm : ∀ m : ℚ, (loopStep true none m envConnFail).multiplierAfter =
      min m max_multiplier * (3 / 2) :=
    fun m => (loopStep_cases true none m envConnFail).2.2.2.2 _ hconn rfl
  have hs : ∀ m : ℚ, (loopStep true none m envConnFail).sleep =
      base_interval * (min m max_multiplier * (3 / 2)) := by
    intro m
    rw [(loopStep_cases true none m envConnFail).2.1, hm m]
  have hmn : ∀ m : ℚ, (loopStep true none m envNoJobs).multiplierAfter =
      min m max_multiplier :=
    fun m => (loopStep_cases true none m envNoJobs).2.2.2.1 _ hnlr
  have hsn : ∀ m : ℚ, (loopStep true none m envNoJobs).sleep =
      base_interval * min m max_multiplier := by
    intro m
    rw [(loopStep_cases true none m envNoJobs).2.1, hmn m]
  have hnil : ∀ m : ℚ, dt_challenges_evaluator_continuous true none m [] = [] :=
    fun _ => rfl
  have hlist : List.replicate 6 envConnFail ++ [envNoJobs] =
      [envConnFail, envConnFail, envConnFail, envConnFail, envConnFail, envConnFail,
        envNoJobs] := rfl
  rw [hlist]
  rw [continuous_cons, continuous_cons, continuous_cons, continuous_cons, continuous_cons,
    continuous_cons, continuous_cons]
  refine ⟨?_, by norm_num [base_interval], ?_, by norm_num⟩
  · simp only [List.map, hnil, hs, hm, hsn, hmn]
    norm_num [min_def, base_interval, max_multiplier]
  · simp only [List.map, hnil, hm, hmn]
    norm_num [min_def, max_multiplier]

/-- C2 amended: across consecutive transient failures the multiplier is multiplied by
3/2 after first being capped at `max_multiplier`, hence is monotonically
non-decreasing and never exceeds 15; the sleep equals `base_interval` times the
updated multiplier and hence is capped at 15 (not 10) times the base interval; the
multiplier resets to 1 only after a pass that completes normally, while a pass ending
in NothingAvailable leaves it at its capped value. -/
theorem backoff_amended (dp : Bool) (du : Option String) (m : ℚ) (env : PassEnv)
    (h1 : 1 ≤ m) (h2 : m ≤ 15) :
    1 ≤ (loopStep dp du m env).multiplierAfter ∧
    (loopStep dp du m env).multiplierAfter ≤ 15 ∧
    (loopStep dp du m env).sleep = base_interval * (loopStep dp du m env).multiplierAfter ∧
    (loopStep dp du m env).sleep ≤ 15 * base_interval ∧
    (∀ e, (go_ none dp du env).result = .raised e → e.isNothingLeft = false →
        m ≤ (loopStep dp du m env).multiplierAfter) ∧
    ((go_ none dp du env).result = .ok → (loopStep dp du m env).multiplierAfter = 1) ∧
    (∀ s, (go_ none dp du env).result = .raised (.nothingLeft s) →
        (loopStep dp du m env).multiplierAfter = min m max_multiplier) := by
  obtain ⟨hev, hsl, hok, hnlc, hfail⟩ := loopStep_cases dp du m env
  have hminlow : (1 : ℚ) ≤ min m max_multiplier := le_min h1 (by norm_num [max_multiplier])
  have hminhigh : min m max_multiplier ≤ 10 := by
    simpa [max_multiplier] using min_le_right m max_multiplier
  have hb : base_interval = 5 := rfl
  rcases hres : (go_ none dp du env).result with _ | e
  · rw [hok hres] at hsl ⊢
    refine ⟨by norm_num, by norm_num, hsl, by rw [hsl, hb]; norm_num, ?_, fun _ => rfl, ?_⟩
    · intro e h
      cases h
    · intro s h
      cases h
  · rcases e with s | s | s
    · rw [hnlc s hres] at hsl ⊢
      refine ⟨hminlow, by linarith, hsl, by rw [hsl, hb]; linarith, ?_, ?_, fun _ _ => rfl⟩
      · intro e' h hf
        injection h with h3
        subst h3
        simp [Exc.isNothingLeft] at hf
      · intro h
        cases h
    · rw [hfail (.connectionError s) hres rfl] at hsl ⊢
      refine ⟨by linarith, by linarith, hsl, by rw [hsl, hb]; linarith, ?_, ?_, ?_⟩
      · intro e' h hf
        rcases le_total m 10 with hm | hm
        · rw [min_eq_left (by rw [max_multiplier]; exact hm)]
          linarith
        · rw [min_eq_right (by rw [max_multiplier]; exact hm)]
          rw [max_multiplier]
          linarith
      · intro h
        cases h
      · intro s' h
        injection h with h3
        cases h3
    · rw [hfail (.exc s) hres rfl] at hsl ⊢
      refine ⟨by linarith, by linarith, hsl, by rw [hsl, hb]; linarith, ?_, ?_, ?_⟩
      · intro e' h hf
        rcases le_total m 10 with hm | hm
        · rw [min_eq_left (by rw [max_multiplier]; exact hm)]
          linarith
        · rw [min_eq_right (by rw [max_multiplier]; exact hm)]
          rw [max_multiplier]
          linarith
      · intro h
        cases h
      · intro s' h
        injection h with h3
        cases h3

/-- Witness for the amended C2 at a concrete ConnectionError pass with multiplier 2. -/
theorem backoff_amended_witness :
    1 ≤ (loopStep true none 2 envConnFail).multiplierAfter ∧
    (loopStep true none 2 envConnFail).multiplierAfter ≤ 15 ∧
    (loopStep true none 2 envConnFail).sleep =
      base_interval * (loopStep true none 2 envConnFail).multiplierAfter ∧
    (loopStep true none 2 envConnFail).sleep ≤ 15 * base_interval ∧
    (2 : ℚ) ≤ (loopStep true none 2 envConnFail).multiplierAfter :=
  have h := backoff_amended true none 2 envConnFail (by norm_num) (by norm_num)
  ⟨h.1, h.2.1, h.2.2.1, h.2.2.2.1,
    h.2.2.2.2.1 (.connectionError "down") (by decide) rfl⟩

/-- C6: the report call is best-effort: when `dtserver_report_job` itself raises, the
call has nevertheless been made (exactly one report event), the exception propagates
out of the pass, the continuous loop absorbs it — every listed pass still produces its
iteration — and the following iteration's events are a function of its own pass
environment alone. -/
theorem report_best_effort (dp : Bool) (du : Option String) (m : ℚ)
    (env env2 : PassEnv) (envs : List PassEnv) (e : Exc)
    (res : WorkSubmissionResponse) (job : JobFields)
    (htok : env.tokenOk = .ok) (hacq : env.acquire = .ok res) (hjob : res.job = some job)
    (hnl : noNothingLeftInStages env) (hrep : env.reportOut = .raise e) :
    reportCount (go_ none dp du env).events = 1 ∧
    (go_ none dp du env).result = .raised e ∧
    (dt_challenges_evaluator_continuous dp du m (env :: env2 :: envs)).length =
      envs.length + 2 ∧
    ((dt_challenges_evaluator_continuous dp du m (env :: env2 :: envs))[1]?).map
        IterRecord.events = some (go_ none dp du env2).events := by
  have hnl' := tryBody_not_nothingLeft dp du job env hnl
  have hgo := go_acquired none dp du env res job htok hacq hjob hnl'
  refine ⟨?_, ?_, ?_, ?_⟩
  · rw [hgo, finishReport_events, reportCount_append_report,
      reportCount_eq_zero _ (tryBody_events_no_report dp du job env)]
  · rw [hgo]
    exact finishReport_result_raised job env _ _ e hrep
  · rw [continuous_length]
    simp
  · rw [continuous_cons, continuous_cons]
    simp [(loopStep_cases dp du ((loopStep dp du m env).multiplierAfter) env2).1]

/-- Witness for C6 at a concrete environment whose report call raises. -/
theorem report_best_effort_witness :
    reportCount (go_ none false none envReportFail).events = 1 ∧
    (go_ none false none envReportFail).result = .raised (.exc "report down") ∧
    (dt_challenges_evaluator_continuous false none 1 [envReportFail, envAllOk]).length = 2 ∧
    ((dt_challenges_evaluator_continuous false none 1 [envReportFail, envAllOk])[1]?).map
        IterRecord.events = some (go_ none false none envAllOk).events :=
  report_best_effort false none 1 envReportFail envAllOk [] (.exc "report down") resOk jobOk
    rfl rfl rfl (by decide) rfl

/-- C3 counterexample: with a successfully parsed SUCCESS ChallengeResults and a
failing artifact image build, the reported outcome is not the already-computed
ChallengeResults: the handler replaces it with a freshly synthesized status-ERROR
one. -/
theorem publish_failure_counterexample :
    envPublishFail.readResults = .ok crOk ∧ crOk.status = .success ∧
    (go_ none true (some "user") envPublishFail).finalCr ≠ some crOk ∧
    ((go_ none true (some "user") envPublishFail).finalCr.map ChallengeResults.status) =
      some .error := by
  decide

/-- C3 amended: when the Artifact Publisher fails after a ChallengeResults was already
computed, the driver still makes exactly one report call, but it reports a freshly
synthesized status-ERROR ChallengeResults carrying the publish failure detail in place
of the already-computed one; the artifacts entry is omitted when the build or digest
resolution failed, yet still included (with image tag and size) when only the push
step failed. -/
theorem publish_failure_amended (sid : Option String) (dp : Bool) (du : Option String)
    (u : String) (env : PassEnv) (res : WorkSubmissionResponse) (job : JobFields)
    (htok : env.tokenOk = .ok) (hacq : env.acquire = .ok res) (hjob : res.job = some job)
    (hA : env.sandboxA = .ok) (hpr : job.protocol = "p1") (hB : env.sandboxB = .ok)
    (hpull : dp = false ∨ env.pullRet = 0) (hup : env.upRet = 0) (hdu : du = some u) :
    (∀ e, env.buildGet = .error e → e.isNothingLeft = false →
        reportCount (go_ sid dp du env).events = 1 ∧
        (go_ sid dp du env).finalCr = some (synthCr e) ∧
        ∀ jid st stat, Event.report jid st stat ∈ (go_ sid dp du env).events →
          st.artifacts = none) ∧
    (∀ i sz e, env.buildGet = .ok (i, sz) → env.pushOut = .raise e →
        e.isNothingLeft = false →
        reportCount (go_ sid dp du env).events = 1 ∧
        (go_ sid dp du env).finalCr = some (synthCr e) ∧
        ∀ jid st stat, Event.report jid st stat ∈ (go_ sid dp du env).events →
          st.artifacts = some { size := some sz, image := artTag u job.job_id i }) := by
  have hbody := tryBody_runner_ok dp du job env hA hpr hB hpull hup
  constructor
  · intro e hbg hnlf
    have ht : tryBody dp du job env =
        failTry ((if dp then [Event.composePull] else []) ++ [Event.composeUp] ++
          [Event.publishBuild]) e := by
      rw [hbody, hdu]
      unfold tryPublish
      rw [hbg]
    have hnl : ∀ m, (tryBody dp du job env).out ≠ .error (.nothingLeft m) := by
      intro m h
      rw [ht] at h
      simp [failTry] at h
      rw [h] at hnlf
      simp [Exc.isNothingLeft] at hnlf
    have hgo := go_acquired sid dp du env res job htok hacq hjob hnl
    refine ⟨?_, ?_, ?_⟩
    · rw [hgo, finishReport_events, reportCount_append_report,
        reportCount_eq_zero _ (tryBody_events_no_report dp du job env)]
    · rw [hgo, finishReport_finalCr]
      simp [crAtReport, ht, failTry]
    · intro jid st stat hmem
      obtain ⟨res2, job2, _, hacq2, hjob2, _, hst⟩ :=
        go_report_mem sid dp du env jid st stat hmem
      have hres2 : res2 = res := by
        rw [hacq] at hacq2
        exact (Except.ok.inj hacq2).symm
      subst hres2
      have hjobeq : job2 = job := by
        rw [hjob] at hjob2
        exact (Option.some.inj hjob2).symm
      subst hjobeq
      rw [hst, ht]
      rfl
  · intro i sz e hbg hpo hnlf
    have ht : tryBody dp du job env =
        { events := (if dp then [Event.composePull] else []) ++ [Event.composeUp] ++
            [Event.publishBuild, Event.publishPush],
          artifacts_image := some (artTag u job.job_id i), size := some sz,
          out := .error e } := by
      rw [hbody, hdu]
      unfold tryPublish
      rw [hbg, hpo]
    have hnl : ∀ m, (tryBody dp du job env).out ≠ .error (.nothingLeft m) := by
      intro m h
      rw [ht] at h
      simp at h
      rw [h] at hnlf
      simp [Exc.isNothingLeft] at hnlf
    have hgo := go_acquired sid dp du env res job htok hacq hjob hnl
    refine ⟨?_, ?_, ?_⟩
    · rw [hgo, finishReport_events, reportCount_append_report,
        reportCount_eq_zero _ (tryBody_events_no_report dp du job env)]
    · rw [hgo, finishReport_finalCr]
      simp [crAtReport, ht]
    · intro jid st stat hmem
      obtain ⟨res2, job2, _, hacq2, hjob2, _, hst⟩ :=
        go_report_mem sid dp du env jid st stat hmem
      have hres2 : res2 = res := by
        rw [hacq] at hacq2
        exact (Except.ok.inj hacq2).symm
      have hjobeq : job2 = job := by
        rw [hres2, hjob] at hjob2
        exact (Option.some.inj hjob2).symm
      rw [hjobeq] at hst
      rw [hst, ht]
      show (mkStats (synthCr e) (some (artTag u job.job_id i)) (some sz)).artifacts =
        some { size := some sz, image := artTag u job.job_id i }
      rw [mkStats_artifacts_of_ne _ _ _ (artTag_ne_empty u job.job_id i)]

/-- Witness for the amended C3 at a concrete environment with a failing image build. -/
theorem publish_failure_amended_witness :
    reportCount (go_ none true (some "user") envPublishFail).events = 1 ∧
    (go_ none true (some "user") envPublishFail).finalCr =
      some (synthCr (.exc "build failed")) :=
  have h := (publish_failure_amended none true (some "user") "user" envPublishFail resOk
    jobOk rfl rfl rfl rfl rfl rfl (.inr rfl) rfl rfl).1 (.exc "build failed") rfl rfl
  ⟨h.1, h.2.1⟩

/-- C4 counterexample: for a job whose protocol is p2, the reported status-ERROR
message does not mention the unsupported protocol value p2 anywhere — the bare assert
traceback carries only the static source text of the check. -/
theorem protocol_message_counterexample :
    jobP2.protocol = "p2" ∧
    ((go_ none true none envP2).finalCr.map fun cr => mentions "p2" cr.msg) =
      some false ∧
    ((go_ none true none envP2).finalCr.map ChallengeResults.status) = some .error := by
  decide

/-- C4 amended: for every acquired job whose protocol is not p1, the assert raises
before any container runs — the trace has no docker-compose pull and no up event —
and the driver makes exactly one report call whose ChallengeResults has status ERROR;
its message is the constant assertion-failure text, which names the protocol field
and the supported value p1 but is independent of (and does not contain) the
unsupported protocol value. -/
theorem protocol_check_amended (sid : Option String) (dp : Bool) (du : Option String)
    (env : PassEnv) (res : WorkSubmissionResponse) (job : JobFields)
    (htok : env.tokenOk = .ok) (hacq : env.acquire = .ok res) (hjob : res.job = some job)
    (hA : env.sandboxA = .ok) (hpr : job.protocol ≠ "p1") :
    Event.composePull ∉ (go_ sid dp du env).events ∧
    Event.composeUp ∉ (go_ sid dp du env).events ∧
    reportCount (go_ sid dp du env).events = 1 ∧
    (go_ sid dp du env).finalCr = some (synthCr (.exc protocolAssertionDetail)) ∧
    mentions "protocol" protocolAssertionDetail = true ∧
    mentions "p1" protocolAssertionDetail = true := by
  have ht := tryBody_protocol dp du job env hA hpr
  have hnl : ∀ m, (tryBody dp du job env).out ≠ .error (.nothingLeft m) := by
    intro m h
    rw [ht] at h
    simp [failTry] at h
  have hgo := go_acquired sid dp du env res job htok hacq hjob hnl
  rw [hgo, ht]
  refine ⟨?_, ?_, ?_, ?_, by decide, by decide⟩
  · rw [finishReport_events]
    simp [failTry]
  · rw [finishReport_events]
    simp [failTry]
  · rw [finishReport_events]
    simp [reportCount, Event.isReport, failTry]
  · rw [finishReport_finalCr]
    rfl

/-- Witness for the amended C4 at the concrete p2-protocol environment. -/
theorem protocol_check_amended_witness :
    Event.composePull ∉ (go_ none true none envP2).events ∧
    Event.composeUp ∉ (go_ none true none envP2).events ∧
    reportCount (go_ none true none envP2).events = 1 ∧
    (go_ none true none envP2).finalCr = some (synthCr (.exc protocolAssertionDetail)) ∧
    mentions "protocol" protocolAssertionDetail = true ∧
    mentions "p1" protocolAssertionDetail = true :=
  protocol_check_amended none true none envP2 { job := some jobP2, msg := "" } jobP2
    rfl rfl rfl rfl (by decide)

end DTRunner
